import Mathlib

/-!
Verification development for the permission-resolution and channel-ordering
engine of `src/discord/abc.py` (discord.py-with-message-components).

The Python source is shallowly embedded below:

* `_Overwrites` (abc.py lines 202-226) — the parsed overwrite record and its
  wire round-trip (`__init__` / `_asdict`);
* `GuildChannel._fill_overwrites` (lines 395-418) — building the overwrite
  store and swapping the everyone overwrite to index 0;
* `GuildChannel.permissions_for` (lines 538-636) — effective permission
  resolution;
* `GuildChannel._move` (lines 273-312) and `GuildChannel.move`
  (lines 870-991) — channel reordering.

Python integers are embedded as `Nat` (all values involved — snowflake ids
and permission bitmasks — are nonnegative).  The classes `Permissions`
(`discord/permissions.py`), `utils.MISSING` (`discord/utils.py`) and the wire
typed dicts (`discord/types/channel.py`) are not under `src/`; the
definitions below that stand in for them are marked `Modelled from the spec:`
and follow the specification's description of them.
-/

namespace Discord

/-! ### Wire scalars and the overwrite record (`_Overwrites`, abc.py 202-226) -/

/-- Modelled from the spec: the wire overwrite record's `type` field is
`0 | 1` (`0 = role`, `1 = member`); `_Overwrites.ROLE = 0`,
`_Overwrites.MEMBER = 1` (abc.py lines 205-206). -/
inductive OverwriteType where
  | role
  | member
deriving DecidableEq, Repr

/-- A Python scalar that `int(...)` is applied to in `_Overwrites.__init__`:
either already an `int`, or a base-10 numeric string.  The string is
represented by its list of base-10 digits, least significant first (so the
empty list is the canonical encoding of `0`). -/
inductive PyScalar where
  | int (n : Nat)
  | str (digits : List Nat)
deriving DecidableEq, Repr

/-- Python `int(x)` on the scalars above: the identity on an `int`, base-10
parsing on a numeric string. -/
def pyInt : PyScalar → Nat
  | PyScalar.int n => n
  | PyScalar.str ds => Nat.ofDigits 10 ds

/-- Modelled from the spec: the wire overwrite record
`{id: snowflake-as-string, type: 0|1, allow: stringified-u64, deny: stringified-u64}`
(`discord/types/channel.py` is not under `src/`).  `allow` and `deny` are
optional because the source reads them with `data.get('allow', 0)` /
`data.get('deny', 0)` (abc.py lines 210-211). -/
structure OverwriteData where
  id : PyScalar
  type : OverwriteType
  allow : Option PyScalar
  deny : Option PyScalar
deriving DecidableEq, Repr

/-- The parsed overwrite record `_Overwrites` (abc.py lines 202-212):
`id`, `allow`, `deny` are parsed to integers, `type` is stored as-is. -/
structure Overwrites where
  id : Nat
  allow : Nat
  deny : Nat
  type : OverwriteType
deriving DecidableEq, Repr

/-- `_Overwrites.__init__` (abc.py lines 208-212). -/
def Overwrites.ofData (data : OverwriteData) : Overwrites :=
  { id := pyInt data.id
    allow := pyInt (data.allow.getD (PyScalar.int 0))
    deny := pyInt (data.deny.getD (PyScalar.int 0))
    type := data.type }

/-- `_Overwrites._asdict` (abc.py lines 214-220): `id` and `type` are
emitted unchanged, `allow` and `deny` as base-10 strings. -/
def Overwrites.asdict (o : Overwrites) : OverwriteData :=
  { id := PyScalar.int o.id
    allow := some (PyScalar.str (Nat.digits 10 o.allow))
    deny := some (PyScalar.str (Nat.digits 10 o.deny))
    type := o.type }

/-- `_Overwrites.is_role` (abc.py line 222). -/
def Overwrites.is_role (o : Overwrites) : Bool := o.type == OverwriteType.role

/-- `_Overwrites.is_member` (abc.py line 225). -/
def Overwrites.is_member (o : Overwrites) : Bool := o.type == OverwriteType.member

/-! ### `GuildChannel._fill_overwrites` (abc.py 395-418) -/

/-- The `everyone_index` scan of `_fill_overwrites` (abc.py lines 400-413):
walk the records with their indices, skip member-kind records, and remember
the index of the latest record whose id equals the everyone id.  `index` is
the position of the head of the remaining list, `acc` the index recorded so
far (initially `0`). -/
def everyoneScan (everyone_id : Nat) : List Overwrites → Nat → Nat → Nat
  | [], _, acc => acc
  | o :: rest, index, acc =>
      everyoneScan everyone_id rest (index + 1)
        (if o.type = OverwriteType.member then acc
         else if o.id = everyone_id then index else acc)

/-- The swap `tmp[everyone_index], tmp[0] = tmp[0], tmp[everyone_index]`
(abc.py lines 415-418), as a total function: swap positions `i` and `j` when
both are in range, otherwise leave the list unchanged (the source guards
with `if tmp:`, and both indices are always in range for a nonempty list). -/
def listSwap (l : List α) (i j : Nat) : List α :=
  match l[i]?, l[j]? with
  | some a, some b => (l.set i b).set j a
  | _, _ => l

/-- `GuildChannel._fill_overwrites` (abc.py lines 395-418): parse every wire
record in order (`_Overwrites.__init__` preserves `id` and `type`, so the
everyone-index scan is performed on the parsed list), then swap the recorded
index with index 0. -/
def fill_overwrites (everyone_id : Nat) (data : List OverwriteData) : List Overwrites :=
  let l := data.map Overwrites.ofData
  listSwap l 0 (everyoneScan everyone_id l 0 0)

/-! ### Permission bits (`discord/permissions.py`, not under `src/`) -/

namespace Permissions

/-- Modelled from the spec: the administrator bit of the 64-bit permission
bitmask (spec section 3; bit positions follow the platform's flag layout). -/
def administrator : Nat := 3

/-- Modelled from the spec: the read-messages (view-channel) bit. -/
def read_messages : Nat := 10

/-- Modelled from the spec: the send-messages bit. -/
def send_messages : Nat := 11

/-- Modelled from the spec: the send-text-to-speech-messages bit. -/
def send_tts_messages : Nat := 12

/-- Modelled from the spec: the embed-links bit. -/
def embed_links : Nat := 14

/-- Modelled from the spec: the attach-files bit. -/
def attach_files : Nat := 15

/-- Modelled from the spec: the mention-everyone bit. -/
def mention_everyone : Nat := 17

/-- Modelled from the spec: the use-application-commands bit. -/
def use_application_commands : Nat := 31

/-- Modelled from the spec: the create-public-threads bit. -/
def create_public_threads : Nat := 35

/-- Modelled from the spec: the create-private-threads bit. -/
def create_private_threads : Nat := 36

/-- Modelled from the spec: the send-voice-messages bit. -/
def send_voice_messages : Nat := 46

/-- Modelled from the spec: `Permissions.all()`, the full-capability set —
every defined capability bit set (bits 0 through 46). -/
def allValue : Nat := 2 ^ 47 - 1

/-- Modelled from the spec: the channel-scoped permission bits, used by
`Permissions.all_channel()` — everything except the guild-only capabilities
(kick/ban, administrator, manage-guild, audit-log, guild-insights,
nickname management, emoji management, moderation and monetization views). -/
def channel_bits : List Nat :=
  [0, 4, 6, 8, 9, 10, 11, 12, 13, 14, 15, 16, 17, 18, 20, 21, 22, 23, 24,
   25, 28, 29, 31, 32, 33, 34, 35, 36, 37, 38, 39, 42, 43, 45, 46]

/-- Modelled from the spec: `Permissions.all_channel()` as a bitmask. -/
def all_channelValue : Nat := channel_bits.foldl (fun a b => a ||| 2 ^ b) 0

end Permissions

/-- Python `value & ~mask` on (unbounded, nonnegative) integers: clear the
bits of `mask`.  On `Nat` the complement is expressed as
`value &&& (value ^^^ mask)`, which has the same bits as `value & ~mask`. -/
def landNot (value mask : Nat) : Nat := value &&& (value ^^^ mask)

/-- Modelled from the spec: `Permissions.handle_overwrite(allow, deny)`
(`discord/permissions.py`, not under `src/`) — deny-then-allow:
`value = (value & ~deny) | allow`. -/
def handle_overwrite (value allow deny : Nat) : Nat := landNot value deny ||| allow

/-- The mask cleared by `permissions_for` when `send_messages` is absent
(abc.py lines 620-630): the eight messaging-dependent bits. -/
def sendDependentMask : Nat :=
  2 ^ Permissions.send_tts_messages ||| 2 ^ Permissions.send_voice_messages |||
  2 ^ Permissions.mention_everyone ||| 2 ^ Permissions.embed_links |||
  2 ^ Permissions.attach_files ||| 2 ^ Permissions.create_public_threads |||
  2 ^ Permissions.create_private_threads ||| 2 ^ Permissions.use_application_commands

/-! ### Guild, member, and `permissions_for` (abc.py 538-636) -/

/-- A guild role: its id and its permission bitmask (`role._permissions`). -/
structure Role where
  id : Nat
  permissions : Nat
deriving DecidableEq, Repr

/-- The guild data `permissions_for` reads: `guild.id`, `guild.owner_id`,
`guild.default_role.permissions.value`, and the role table behind
`guild.get_role`. -/
structure Guild where
  id : Nat
  owner_id : Nat
  default_role_permissions : Nat
  roles : List Role
deriving DecidableEq, Repr

/-- `guild.get_role(role_id)`: exact lookup in the role table. -/
def Guild.get_role (g : Guild) (role_id : Nat) : Option Role :=
  g.roles.find? (fun r => r.id == role_id)

/-- The member data `permissions_for` reads: `member.id` and the role-id
set `member._roles`. -/
structure Member where
  id : Nat
  roles : List Nat
deriving DecidableEq, Repr

/-- `member._roles.has(role_id)`. -/
def Member.hasRole (m : Member) (role_id : Nat) : Bool := m.roles.contains role_id

/-- Steps 2-3 of the resolver (abc.py lines 576-585): start from the
everyone role's bitmask and OR in every role of the member that resolves in
the guild's role table; unresolvable role ids are skipped. -/
def basePermissions (g : Guild) (m : Member) : Nat :=
  m.roles.foldl
    (fun base role_id =>
      match g.get_role role_id with
      | some role => base ||| role.permissions
      | none => base)
    g.default_role_permissions

/-- The everyone-overwrite step (abc.py lines 592-601): if the overwrite at
index 0 has the guild's id, apply it to `base` and drop it from the
remaining overwrites; otherwise (also for an empty store, the `IndexError`
branch) leave `base` and the store unchanged.  Returns
`(base, remaining_overwrites)`. -/
def applyEveryone (g : Guild) (base : Nat) (overwrites : List Overwrites) :
    Nat × List Overwrites :=
  match overwrites with
  | [] => (base, [])
  | maybe_everyone :: rest =>
      if maybe_everyone.id = g.id then
        (handle_overwrite base maybe_everyone.allow maybe_everyone.deny, rest)
      else
        (base, maybe_everyone :: rest)

/-- The combined role-overwrite pass (abc.py lines 603-612): OR together the
allow and deny masks of every role-kind overwrite whose target the member
holds, then apply them in one deny-then-allow step. -/
def applyRoleOverwrites (m : Member) (remaining : List Overwrites) (base : Nat) : Nat :=
  let p := remaining.foldl
    (fun (p : Nat × Nat) o =>
      if o.is_role && m.hasRole o.id then (p.1 ||| o.deny, p.2 ||| o.allow) else p)
    (0, 0)
  handle_overwrite base p.2 p.1

/-- The member-overwrite step (abc.py lines 614-618): the loop applies the
first member-kind overwrite whose id equals the member's id, then breaks. -/
def applyMemberOverwrite (m : Member) (remaining : List Overwrites) (base : Nat) : Nat :=
  match remaining.find? (fun o => o.is_member && o.id == m.id) with
  | some o => handle_overwrite base o.allow o.deny
  | none => base

/-- The base permission value after all three overwrite layers (everyone,
combined roles, member), before dependent-permission clearing. -/
def resolvedOverwriteBase (g : Guild) (overwrites : List Overwrites) (m : Member) : Nat :=
  let p := applyEveryone g (basePermissions g m) overwrites
  applyMemberOverwrite m p.2 (applyRoleOverwrites m p.2 p.1)

/-- Dependent-permission clearing (abc.py lines 620-636): without
`send_messages` the eight messaging-dependent bits are cleared; without
`read_messages` every channel-scoped bit is cleared. -/
def clearDependents (base : Nat) : Nat :=
  let b :=
    if base.testBit Permissions.send_messages = false then landNot base sendDependentMask
    else base
  if b.testBit Permissions.read_messages = false then landNot b Permissions.all_channelValue
  else b

/-- `GuildChannel.permissions_for(member)` (abc.py lines 538-636), with the
channel represented by its overwrite store. -/
def permissions_for (g : Guild) (overwrites : List Overwrites) (m : Member) : Nat :=
  if g.owner_id = m.id then Permissions.allValue
  else if (basePermissions g m).testBit Permissions.administrator then Permissions.allValue
  else clearDependents (resolvedOverwriteBase g overwrites m)

/-! ### Channel ordering: `_move` (abc.py 273-312) and `move` (abc.py 870-991) -/

/-- The channel data the ordering code reads: `id`, `position`,
`category_id` and `_sorting_bucket`. -/
structure Chan where
  id : Nat
  position : Nat
  category_id : Option Nat
  sorting_bucket : Nat
deriving DecidableEq, Repr

/-- The sort key of `_move` (abc.py line 288): `key=lambda c: c.position`.
Python's sort is stable and ascending; `List.insertionSort` with this
relation is the same stable sort. -/
def posLe (a b : Chan) : Prop := a.position ≤ b.position

instance : DecidableRel posLe :=
  fun a b => inferInstanceAs (Decidable (a.position ≤ b.position))

/-- The sort key of `move` (abc.py line 961):
`key=lambda c: (c.position, c.id)` — lexicographic on (position, id). -/
def posIdLe (a b : Chan) : Prop :=
  a.position < b.position ∨ (a.position = b.position ∧ a.id ≤ b.id)

instance : DecidableRel posIdLe :=
  fun a b =>
    inferInstanceAs (Decidable (a.position < b.position ∨ (a.position = b.position ∧ a.id ≤ b.id)))

/-- The candidate list of `_move` (abc.py lines 286-288): every guild
channel in the moved channel's sorting bucket (the category is not
consulted), stable-sorted by `position` alone. -/
def move_candidates (guild_channels : List Chan) (self : Chan) : List Chan :=
  List.insertionSort posLe
    (guild_channels.filter (fun c => c.sorting_bucket == self.sorting_bucket))

/-- The candidate list as claim C8 words it (for comparison with
`move_candidates`): every guild channel sharing the moved channel's sorting
bucket AND its current category, sorted by `(position, id)` with id as the
tie-break. -/
def move_candidatesSpec (guild_channels : List Chan) (self : Chan) : List Chan :=
  List.insertionSort posIdLe
    (guild_channels.filter
      (fun c => c.sorting_bucket == self.sorting_bucket && c.category_id == self.category_id))

/-- The errors the ordering code can raise before any transport call. -/
inductive MoveErr where
  /-- `InvalidArgument('Channel position cannot be less than 0.')` (abc.py line 282). -/
  | invalid_argument_negative_position
  /-- `InvalidArgument('Only one of [before, after, end, beginning] can be used.')` (abc.py line 940). -/
  | invalid_argument_mix
  /-- `InvalidArgument('Could not resolve appropriate move position')` (abc.py line 981). -/
  | invalid_argument_position
  /-- `AttributeError`: `category.id` evaluated with `category = None` (abc.py line 942). -/
  | attribute_error_none_id
deriving DecidableEq, Repr

/-- One entry of the bulk position-update payload: `{'id': ..., 'position': ...}`,
plus — for the moved channel only, when a parent change is requested —
`parent_id` (possibly null) and the `lock_permissions` flag. -/
structure PayloadEntry where
  id : Nat
  position : Nat
  parent : Option (Option Nat × Bool)
deriving DecidableEq, Repr

/-- The `category` argument of `move`: `MISSING` (unset), an explicit
`None`, or a category snowflake (represented by its id). -/
inductive CategoryArg where
  | missing
  | null
  | val (id : Nat)
deriving DecidableEq, Repr

/-- Python `b is not MISSING` where `b` is a bool-typed argument:
a bool object is never the `MISSING` sentinel, so the identity test is
always true.  In `move`, `beginning` and `end` default to `False` — not to
`MISSING` — so the tests on abc.py lines 971 and 973 always succeed. -/
def bool_is_not_MISSING (_b : Bool) : Bool := true

/-- `channels.remove(self)` (abc.py lines 292 and 965): remove the first
channel equal to `self` (channel equality is by id); if absent, the source
catches `ValueError` and leaves the list unchanged — so does this. -/
def pyRemoveFirst (self_id : Nat) : List Chan → List Chan
  | [] => []
  | c :: rest => if c.id == self_id then rest else c :: pyRemoveFirst self_id rest

/-- Python `list.insert(i, x)` for a nonnegative index: insert before
position `i`, appending when `i` is at or past the end. -/
def pyInsert (i : Nat) (x : α) (l : List α) : List α := l.take i ++ x :: l.drop i

/-- `GuildChannel._move(position, parent_id, lock_permissions)`
(abc.py lines 273-312), up to the transport call: returns the bulk-update
payload, or `none` when the moved channel is not among the candidates (the
source returns early from the `except ValueError` branch), or an error for
a negative position.  `parent_id` is `none` for the `MISSING` default, and
`some p` for an explicit argument (`p = none` encodes Python `None`). -/
def underscore_move (guild_channels : List Chan) (self : Chan) (position : Int)
    (parent_id : Option (Option Nat)) (lock_permissions : Bool) :
    Except MoveErr (Option (List PayloadEntry)) :=
  if position < 0 then Except.error MoveErr.invalid_argument_negative_position
  else
    let channels := move_candidates guild_channels self
    if (channels.find? (fun c => c.id == self.id)).isNone then Except.ok none
    else
      let channels := pyRemoveFirst self.id channels
      let index := (channels.findIdx? (fun c => (position : Int) ≤ (c.position : Int))).getD channels.length
      let channels := pyInsert index self channels
      Except.ok (some ((channels.enum).map (fun p =>
        { id := p.2.id
          position := p.1
          parent :=
            match parent_id, p.2.id == self.id with
            | some pid, true => some (pid, lock_permissions)
            | _, _ => none })))

/-- Concrete wire input for exercising `fill_overwrites`: the spec's
scenario `[{id: 42, type: role}, {id: everyoneId, type: role}]` with
`everyoneId = 5`. -/
def exampleOverwriteData : List OverwriteData :=
  [⟨PyScalar.int 42, OverwriteType.role, none, none⟩,
   ⟨PyScalar.int 5, OverwriteType.role, some (PyScalar.int 3), some (PyScalar.int 1)⟩]

/-- `GuildChannel.move(...)` (abc.py lines 870-991), up to the transport
call.  `before`/`after` carry the anchor channel's id (`none` is the
`MISSING` default); `bool(MISSING)` is falsy (modelled from the spec's
sentinel pattern, `discord/utils.py` is not under `src/`). -/
def move (guild_channels : List Chan) (self : Chan)
    (beginning : Bool) (end_ : Bool) (before after : Option Nat) (offset : Int)
    (category : CategoryArg) (sync_permissions : Bool) :
    Except MoveErr (List PayloadEntry) := do
  if (if beginning then 1 else 0) + (if end_ then 1 else 0) +
      (if before.isSome then 1 else 0) + (if after.isSome then 1 else 0) > 1 then
    throw MoveErr.invalid_argument_mix
  -- line 942: `parent_id = ... if category is MISSING else category.id`;
  -- `category.id` raises AttributeError when `category` is an explicit `None`.
  -- `none` below stands for the `...` sentinel, `some cid` for a real id.
  let parent_id : Option Nat ←
    match category with
    | CategoryArg.missing => pure none
    | CategoryArg.null => throw MoveErr.attribute_error_none_id
    | CategoryArg.val cid => pure (some cid)
  -- lines 944-959: candidate channels share the bucket and the requested
  -- (or, without a request, the current) category.
  let channels :=
    match parent_id with
    | some cid =>
        guild_channels.filter
          (fun ch => ch.sorting_bucket == self.sorting_bucket && ch.category_id == some cid)
    | none =>
        guild_channels.filter
          (fun ch => ch.sorting_bucket == self.sorting_bucket && ch.category_id == self.category_id)
  let channels := List.insertionSort posIdLe channels
  let channels := pyRemoveFirst self.id channels
  -- lines 970-978: `beginning`/`end` are bools, never `MISSING`, so the
  -- first branch is always taken and `index` is always `0`.
  let index : Option Int :=
    if bool_is_not_MISSING beginning then some 0
    else if bool_is_not_MISSING end_ then some (Int.ofNat channels.length)
    else
      match before with
      | some bid => (channels.findIdx? (fun c => c.id == bid)).map Int.ofNat
      | none =>
        match after with
        | some aid => (channels.findIdx? (fun c => c.id == aid)).map (fun i => Int.ofNat (i + 1))
        | none => none
  match index with
  | none => throw MoveErr.invalid_argument_position
  | some idx =>
    let channels := pyInsert (max (idx + offset) 0).toNat self channels
    pure ((channels.enum).map (fun p =>
      { id := p.2.id
        position := p.1
        parent :=
          match parent_id, p.2.id == self.id with
          | some cid, true => some (some cid, sync_permissions)
          | _, _ => none }))

end Discord

/-! ## Helper lemmas -/

namespace Discord

/-- Bit view of `landNot`: `value & ~mask` clears exactly the bits of `mask`. -/
theorem testBit_landNot (value mask i : Nat) :
    (landNot value mask).testBit i = (value.testBit i && !(mask.testBit i)) := by
  simp only [landNot, Nat.testBit_land, Nat.testBit_xor]
  cases ha : value.testBit i <;> cases hm : mask.testBit i <;> rfl

/-- Bit view of `handle_overwrite`: deny clears, then allow sets. -/
theorem testBit_handle_overwrite (value allow deny i : Nat) :
    (handle_overwrite value allow deny).testBit i
      = ((value.testBit i && !(deny.testBit i)) || allow.testBit i) := by
  simp [handle_overwrite, Nat.testBit_lor, testBit_landNot]

/-- After clearing the bits of `mask`, no bit of `mask` remains set. -/
theorem landNot_land_self (a mask : Nat) : landNot a mask &&& mask = 0 := by
  refine Nat.eq_of_testBit_eq fun i => ?_
  simp only [Nat.testBit_land, testBit_landNot, Nat.zero_testBit]
  cases mask.testBit i <;> simp

/-- If no record of the list is a non-member record with the everyone id,
the `everyone_index` scan keeps its accumulator. -/
theorem everyoneScan_of_forall (eid : Nat) :
    ∀ (l : List Overwrites),
      (∀ o ∈ l, o.type = OverwriteType.member ∨ ¬ o.id = eid) →
      ∀ (i acc : Nat), everyoneScan eid l i acc = acc
  | [], _, _, _ => rfl
  | o :: rest, h, i, acc => by
    have ho := h o (List.mem_cons_self o rest)
    have hr := fun o' hm => h o' (List.mem_cons_of_mem o hm)
    have hacc : (if o.type = OverwriteType.member then acc
        else if o.id = eid then i else acc) = acc := by
      rcases ho with hm | hid
      · rw [if_pos hm]
      · by_cases ht : o.type = OverwriteType.member
        · rw [if_pos ht]
        · rw [if_neg ht, if_neg hid]
    show everyoneScan eid rest (i + 1)
        (if o.type = OverwriteType.member then acc else if o.id = eid then i else acc) = acc
    rw [hacc]
    exact everyoneScan_of_forall eid rest hr (i + 1) acc

/-- If some record of the list is a non-member record with the everyone id,
the `everyone_index` scan lands on such a record (the last one). -/
theorem everyoneScan_found (eid : Nat) :
    ∀ (l : List Overwrites),
      (∃ o ∈ l, ¬ o.type = OverwriteType.member ∧ o.id = eid) →
      ∀ (i acc : Nat), ∃ k r, l[k]? = some r ∧ ¬ r.type = OverwriteType.member ∧
        r.id = eid ∧ everyoneScan eid l i acc = i + k
  | [], h, _, _ => absurd h (by simp)
  | o :: rest, h, i, acc => by
    by_cases hrest : ∃ o' ∈ rest, ¬ o'.type = OverwriteType.member ∧ o'.id = eid
    · obtain ⟨k, r, hget, ht, hid, hscan⟩ :=
        everyoneScan_found eid rest hrest (i + 1)
          (if o.type = OverwriteType.member then acc else if o.id = eid then i else acc)
      refine ⟨k + 1, r, by simpa using hget, ht, hid, ?_⟩
      show everyoneScan eid rest (i + 1)
          (if o.type = OverwriteType.member then acc else if o.id = eid then i else acc)
        = i + (k + 1)
      rw [hscan]
      omega
    · have ho : ¬ o.type = OverwriteType.member ∧ o.id = eid := by
        obtain ⟨o', ho', hprops⟩ := h
        rcases List.mem_cons.mp ho' with rfl | hmem
        · exact hprops
        · exact absurd ⟨o', hmem, hprops⟩ hrest
      have hr : ∀ o' ∈ rest, o'.type = OverwriteType.member ∨ ¬ o'.id = eid := by
        intro o' hm
        by_cases ht : o'.type = OverwriteType.member
        · exact Or.inl ht
        · by_cases hid : o'.id = eid
          · exact absurd ⟨o', hm, ht, hid⟩ hrest
          · exact Or.inr hid
      refine ⟨0, o, by simp, ho.1, ho.2, ?_⟩
      show everyoneScan eid rest (i + 1)
          (if o.type = OverwriteType.member then acc else if o.id = eid then i else acc)
        = i + 0
      rw [if_neg ho.1, if_pos ho.2, everyoneScan_of_forall eid rest hr (i + 1) i]
      omega

/-- Unfolding of `listSwap` when both positions are present. -/
theorem listSwap_eq (l : List α) (k : Nat) (a0 r : α)
    (h0 : l[0]? = some a0) (hk : l[k]? = some r) :
    listSwap l 0 k = (l.set 0 r).set k a0 := by
  unfold listSwap
  rw [h0, hk]

end Discord

/-! ## Claim theorems -/

namespace Discord

/-- Claim C10: overwrite-record round-trip — `_Overwrites` parses `id`,
`allow` and `deny` to integers, `_asdict` serializes `allow`/`deny` back as
base-10 strings of those integers, and re-parsing the `_asdict` output gives
back a record with identical `id`, `allow`, `deny` and `type`. -/
theorem claim_C10_overwrite_roundtrip (o : Overwrites) :
    Overwrites.ofData (Overwrites.asdict o) = o := by
  cases o with
  | mk id allow deny type =>
    simp [Overwrites.ofData, Overwrites.asdict, pyInt, Nat.ofDigits_digits]

/-- Claim C1: for a member whose id equals the guild's owner id,
`permissions_for` returns the full-capability set, whatever the channel's
overwrite store holds — no overwrite is consulted. -/
theorem claim_C1_owner_full_permissions (g : Guild) (overwrites : List Overwrites)
    (m : Member) (h : g.owner_id = m.id) :
    permissions_for g overwrites m = Permissions.allValue := by
  simp [permissions_for, h]

/-- Witness for claim C1 at a concrete owner. -/
theorem claim_C1_witness :
    permissions_for ⟨1, 7, 0, []⟩ [] ⟨7, []⟩ = Permissions.allValue :=
  claim_C1_owner_full_permissions _ _ _ rfl

/-- Claim C2: for a non-owner member whose combined role bitmask (everyone
OR resolvable roles) has the administrator bit, `permissions_for` returns
the full-capability set for every overwrite store — overwrites, including
explicit denies, are never consulted. -/
theorem claim_C2_admin_full_permissions (g : Guild) (overwrites : List Overwrites)
    (m : Member) (hown : ¬ g.owner_id = m.id)
    (hadm : (basePermissions g m).testBit Permissions.administrator = true) :
    permissions_for g overwrites m = Permissions.allValue := by
  simp [permissions_for, hown, hadm]

/-- Witness for claim C2: an administrator role, with an overwrite that
explicitly denies the read-messages bit. -/
theorem claim_C2_witness :
    permissions_for ⟨1, 99, 0, [⟨2, 2 ^ 3⟩]⟩ [⟨2, 0, 2 ^ 10, OverwriteType.role⟩] ⟨7, [2]⟩
      = Permissions.allValue :=
  claim_C2_admin_full_permissions _ _ _ (by decide) (by decide)

/-- Claim C3: after `_fill_overwrites`, if a role-kind record with the
everyone id exists anywhere in the input, a role-kind record with the
everyone id is at index 0 of the result, the result is the input with index
0 and the recorded everyone index swapped and nothing else changed; if no
such record exists, the parsed list is returned unchanged (no synthetic
entry is fabricated). -/
theorem claim_C3_everyone_overwrite_first (eid : Nat) (data : List OverwriteData) :
    ((∃ d ∈ data, d.type = OverwriteType.role ∧ pyInt d.id = eid) →
      (∃ r, (fill_overwrites eid data)[0]? = some r ∧ r.type = OverwriteType.role ∧
        r.id = eid ∧
        (data.map Overwrites.ofData)[everyoneScan eid (data.map Overwrites.ofData) 0 0]?
          = some r) ∧
      (fill_overwrites eid data)[everyoneScan eid (data.map Overwrites.ofData) 0 0]?
        = (data.map Overwrites.ofData)[0]? ∧
      (∀ j, j ≠ 0 → j ≠ everyoneScan eid (data.map Overwrites.ofData) 0 0 →
        (fill_overwrites eid data)[j]? = (data.map Overwrites.ofData)[j]?)) ∧
    ((¬ ∃ d ∈ data, d.type = OverwriteType.role ∧ pyInt d.id = eid) →
      fill_overwrites eid data = data.map Overwrites.ofData) := by
  set l := data.map Overwrites.ofData with hl
  constructor
  · intro h
    have h' : ∃ o ∈ l, ¬ o.type = OverwriteType.member ∧ o.id = eid := by
      obtain ⟨d, hd, ht, hid⟩ := h
      refine ⟨Overwrites.ofData d, hl ▸ List.mem_map_of_mem Overwrites.ofData hd, ?_, hid⟩
      show ¬ d.type = OverwriteType.member
      rw [ht]
      exact fun hh => nomatch hh
    obtain ⟨k, r, hget, ht, hid, hscan⟩ := everyoneScan_found eid l h' 0 0
    have hk' : everyoneScan eid l 0 0 = k := by omega
    have hrole : r.type = OverwriteType.role := by
      cases hr : r.type with
      | role => rfl
      | member => exact absurd hr ht
    have hkl : k < l.length := by
      by_contra hh
      push_neg at hh
      simp [List.getElem?_eq_none hh] at hget
    have h0l : 0 < l.length := Nat.lt_of_le_of_lt (Nat.zero_le k) hkl
    obtain ⟨a0, h0⟩ : ∃ a, l[0]? = some a := ⟨_, List.getElem?_eq_getElem h0l⟩
    have hfill : fill_overwrites eid data = (l.set 0 r).set k a0 := by
      show listSwap l 0 (everyoneScan eid l 0 0) = _
      rw [hk']
      exact listSwap_eq l k a0 r h0 hget
    rw [hk']
    refine ⟨⟨r, ?_, hrole, hid, hget⟩, ?_, ?_⟩
    · rw [hfill]
      by_cases hk0 : k = 0
      · subst hk0
        rw [h0] at hget
        rw [List.set_set, List.getElem?_set_eq_of_lt a0 h0l]
        exact hget
      · rw [List.getElem?_set_ne hk0, List.getElem?_set_eq_of_lt r h0l]
    · rw [hfill, List.getElem?_set_eq_of_lt a0 (by rw [List.length_set]; exact hkl)]
      exact h0.symm
    · intro j hj0 hjk
      rw [hfill, List.getElem?_set_ne (Ne.symm hjk), List.getElem?_set_ne (Ne.symm hj0)]
  · intro h
    have h' : ∀ o ∈ l, o.type = OverwriteType.member ∨ ¬ o.id = eid := by
      intro o hm
      rw [hl] at hm
      obtain ⟨d, hd, rfl⟩ := List.mem_map.mp hm
      by_cases ht : d.type = OverwriteType.member
      · exact Or.inl ht
      · right
        intro hid
        have hrole : d.type = OverwriteType.role := by
          cases hdt : d.type with
          | role => rfl
          | member => exact absurd hdt ht
        exact h ⟨d, hd, hrole, hid⟩
    have hk0 : everyoneScan eid l 0 0 = 0 := everyoneScan_of_forall eid l h' 0 0
    show listSwap l 0 (everyoneScan eid l 0 0) = l
    rw [hk0]
    cases l <;> simp [listSwap]

/-- Witness for claim C3 at the spec's scenario (guild id 5). -/
theorem claim_C3_witness :
    ∃ r, (fill_overwrites 5 exampleOverwriteData)[0]? = some r ∧
      r.type = OverwriteType.role ∧ r.id = 5 ∧
      (exampleOverwriteData.map Overwrites.ofData)[everyoneScan 5
        (exampleOverwriteData.map Overwrites.ofData) 0 0]? = some r :=
  ((claim_C3_everyone_overwrite_first 5 exampleOverwriteData).1 (by decide)).1

end Discord

namespace Discord

/-- Claim C4, counterexample: as stated — "the resolved permission set
includes bit B" — the claim is false, because dependent-permission clearing
runs after the member overwrite.  Concretely: the everyone permissions are
empty, a role overwrite held by the member denies bit 14 (embed-links), a
member overwrite allows it, yet the final resolved set clears bit 14 (the
base lacks send-messages and read-messages). -/
theorem claim_C4_counterexample :
    (⟨1, 99, 0, [⟨2, 0⟩]⟩ : Guild).owner_id ≠ (⟨7, [2]⟩ : Member).id ∧
    (basePermissions ⟨1, 99, 0, [⟨2, 0⟩]⟩ ⟨7, [2]⟩).testBit Permissions.administrator
      = false ∧
    (∃ r ∈ ([⟨2, 0, 2 ^ 14, OverwriteType.role⟩,
        ⟨7, 2 ^ 14, 0, OverwriteType.member⟩] : List Overwrites),
      r.is_role = true ∧ Member.hasRole ⟨7, [2]⟩ r.id = true ∧ r.deny.testBit 14 = true) ∧
    (∃ r ∈ ([⟨2, 0, 2 ^ 14, OverwriteType.role⟩,
        ⟨7, 2 ^ 14, 0, OverwriteType.member⟩] : List Overwrites),
      r.is_member = true ∧ r.id = (⟨7, [2]⟩ : Member).id ∧ r.allow.testBit 14 = true) ∧
    (permissions_for ⟨1, 99, 0, [⟨2, 0⟩]⟩
        [⟨2, 0, 2 ^ 14, OverwriteType.role⟩, ⟨7, 2 ^ 14, 0, OverwriteType.member⟩]
        ⟨7, [2]⟩).testBit 14 = false := by
  decide

/-- Claim C4, amended: for a non-owner, non-administrator member, if the
member-kind overwrite the resolver applies (the first one with the member's
id among the overwrites remaining after the everyone slot) allows bit B,
then — whatever role-kind overwrites denied B — the base after the overwrite
layers includes bit B, and so does the final resolved set provided B
survives dependent clearing (the post-overwrite base retains send-messages
and read-messages). -/
theorem claim_C4_member_allow_wins (g : Guild) (overwrites : List Overwrites)
    (m : Member) (B : Nat) (o : Overwrites)
    (hown : ¬ g.owner_id = m.id)
    (hadm : (basePermissions g m).testBit Permissions.administrator = false)
    (hrole : ∃ r ∈ overwrites, r.is_role = true ∧ m.hasRole r.id = true ∧
      r.deny.testBit B = true)
    (hfind : (applyEveryone g (basePermissions g m) overwrites).2.find?
        (fun o => o.is_member && o.id == m.id) = some o)
    (hallow : o.allow.testBit B = true)
    (hsend : (resolvedOverwriteBase g overwrites m).testBit Permissions.send_messages = true)
    (hread : (resolvedOverwriteBase g overwrites m).testBit Permissions.read_messages = true) :
    (resolvedOverwriteBase g overwrites m).testBit B = true ∧
    (permissions_for g overwrites m).testBit B = true := by
  have hrb : (resolvedOverwriteBase g overwrites m).testBit B = true := by
    simp only [resolvedOverwriteBase, applyMemberOverwrite]
    rw [hfind]
    simp [testBit_handle_overwrite, hallow]
  have hpf : permissions_for g overwrites m
      = clearDependents (resolvedOverwriteBase g overwrites m) := by
    simp [permissions_for, hown, hadm]
  have hcd : clearDependents (resolvedOverwriteBase g overwrites m)
      = resolvedOverwriteBase g overwrites m := by
    simp only [clearDependents]
    rw [if_neg (by simp [hsend, hread]), if_neg (by simp [hsend, hread])]
  exact ⟨hrb, by rw [hpf, hcd]; exact hrb⟩

/-- Witness for the amended claim C4: everyone grants read+send, a role
overwrite denies embed-links (bit 14), the member overwrite allows it, and
the resolved set includes it. -/
theorem claim_C4_witness :
    ((resolvedOverwriteBase ⟨1, 99, 2 ^ 10 ||| 2 ^ 11, [⟨2, 0⟩]⟩
        [⟨2, 0, 2 ^ 14, OverwriteType.role⟩, ⟨7, 2 ^ 14, 0, OverwriteType.member⟩]
        ⟨7, [2]⟩).testBit 14 = true) ∧
    ((permissions_for ⟨1, 99, 2 ^ 10 ||| 2 ^ 11, [⟨2, 0⟩]⟩
        [⟨2, 0, 2 ^ 14, OverwriteType.role⟩, ⟨7, 2 ^ 14, 0, OverwriteType.member⟩]
        ⟨7, [2]⟩).testBit 14 = true) :=
  claim_C4_member_allow_wins _ _ _ 14 ⟨7, 2 ^ 14, 0, OverwriteType.member⟩
    (by decide) (by decide) (by decide) (by decide) (by decide) (by decide) (by decide)

/-- Claim C5: whenever the base computed through all overwrite layers lacks
the read-messages bit, every channel-scoped bit of the returned set is
clear, whatever the overwrites tried to grant. -/
theorem claim_C5_read_gates_channel_bits (g : Guild) (overwrites : List Overwrites)
    (m : Member) (hown : ¬ g.owner_id = m.id)
    (hadm : (basePermissions g m).testBit Permissions.administrator = false)
    (hread : (resolvedOverwriteBase g overwrites m).testBit Permissions.read_messages
      = false) :
    permissions_for g overwrites m &&& Permissions.all_channelValue = 0 := by
  have hpf : permissions_for g overwrites m
      = clearDependents (resolvedOverwriteBase g overwrites m) := by
    simp [permissions_for, hown, hadm]
  rw [hpf]
  simp only [clearDependents]
  have hbread : (if (resolvedOverwriteBase g overwrites m).testBit Permissions.send_messages
        = false
      then landNot (resolvedOverwriteBase g overwrites m) sendDependentMask
      else resolvedOverwriteBase g overwrites m).testBit Permissions.read_messages
      = false := by
    by_cases hs : (resolvedOverwriteBase g overwrites m).testBit Permissions.send_messages
        = false
    · simp [hs, testBit_landNot, hread]
    · simp [hs, hread]
  rw [if_pos hbread]
  exact landNot_land_self _ _

/-- Witness for claim C5: with an overwrite granting send-messages but read
denied everywhere, all channel-scoped bits vanish from the result. -/
theorem claim_C5_witness :
    permissions_for ⟨1, 99, 0, []⟩ [⟨1, 2 ^ 11, 0, OverwriteType.role⟩] ⟨7, []⟩ &&&
      Permissions.all_channelValue = 0 :=
  claim_C5_read_gates_channel_bits _ _ _ (by decide) (by decide) (by decide)

/-- Claim C6 (code-bug evaluation): with channels `A(pos 0)` and `B(pos 1)`
in the same bucket and category, `move(A, end=True, offset=0)` emits the
payload `[A:0, B:1]`, not the claimed `[B:0, A:1]`: the dispatch tests
`beginning is not MISSING` on a bool that defaults to `False`, so the
insertion index is `0` — never `len(candidates)` — and `A` stays first. -/
theorem claim_C6_end_placement_ignored :
    move [⟨1, 0, none, 0⟩, ⟨2, 1, none, 0⟩] ⟨1, 0, none, 0⟩ false true none none 0
        CategoryArg.missing false =
      Except.ok [⟨1, 0, none⟩, ⟨2, 1, none⟩] := rfl

/-- Claim C7 (code-bug evaluation): `move(X, before=Y)` with `Y` (id 99)
absent from the candidate set does NOT raise — the `beginning is not
MISSING` branch fires first, the unresolved-anchor check is unreachable,
and a payload placing `X` at index 0 is produced. -/
theorem claim_C7_unresolved_anchor_not_raised :
    move [⟨1, 0, none, 0⟩, ⟨2, 1, none, 0⟩] ⟨1, 0, none, 0⟩ false false (some 99) none 0
        CategoryArg.missing false =
      Except.ok [⟨1, 0, none⟩, ⟨2, 1, none⟩] := rfl

/-- Claim C8, counterexample: the `_move` candidate list differs from the
claim's description in both respects — a same-bucket channel in a different
category (id 9, category 7) IS a candidate, and for equal positions the
original order (id 9 before id 3) is kept rather than id-sorted. -/
theorem claim_C8_counterexample :
    (⟨9, 1, some 7, 0⟩ : Chan) ∈
      move_candidates [⟨5, 0, none, 0⟩, ⟨9, 1, some 7, 0⟩, ⟨3, 1, none, 0⟩]
        ⟨5, 0, none, 0⟩ ∧
    (⟨9, 1, some 7, 0⟩ : Chan) ∉
      move_candidatesSpec [⟨5, 0, none, 0⟩, ⟨9, 1, some 7, 0⟩, ⟨3, 1, none, 0⟩]
        ⟨5, 0, none, 0⟩ ∧
    move_candidates [⟨9, 1, none, 0⟩, ⟨3, 1, none, 0⟩] ⟨5, 0, none, 0⟩ =
      [⟨9, 1, none, 0⟩, ⟨3, 1, none, 0⟩] ∧
    move_candidatesSpec [⟨9, 1, none, 0⟩, ⟨3, 1, none, 0⟩] ⟨5, 0, none, 0⟩ =
      [⟨3, 1, none, 0⟩, ⟨9, 1, none, 0⟩] := by
  decide

/-- Claim C8, amended: the `_move` candidate list consists of exactly the
guild channels sharing the moved channel's sorting bucket — the current
category is not consulted — and is sorted by position ascending alone
(Python's stable sort; id is not a tie-break). -/
theorem claim_C8_move_candidates (guild_channels : List Chan) (self : Chan) :
    List.Sorted posLe (move_candidates guild_channels self) ∧
    (move_candidates guild_channels self).Perm
      (guild_channels.filter (fun c => c.sorting_bucket == self.sorting_bucket)) := by
  constructor
  · haveI h1 : IsTotal Chan posLe := ⟨fun a b => Nat.le_total a.position b.position⟩
    haveI h2 : IsTrans Chan posLe := ⟨fun _ _ _ hab hbc => Nat.le_trans hab hbc⟩
    exact List.sorted_insertionSort posLe _
  · exact List.perm_insertionSort posLe _

/-- Claim C9 (code-bug evaluation): a move request with an explicit null
category crashes with `AttributeError` (`category.id` with `category =
None`) instead of being handled as "remove from category". -/
theorem claim_C9_null_category_attribute_error :
    move [⟨1, 0, some 5, 0⟩, ⟨2, 1, some 5, 0⟩] ⟨1, 0, some 5, 0⟩ true false none none 0
        CategoryArg.null false =
      Except.error MoveErr.attribute_error_none_id := rfl

end Discord
